import Mathlib

/-!
Verification of the videoh media-library core (`src/videoh/window.py`).

The Python source is shallowly embedded: dictionaries become association
lists with Python-dict semantics (assignment keeps the position of an
existing key, new keys are appended), JSON values become the inductive
`JVal`, file contents become the inductive `FileDoc`, and code that can
raise returns `Except`.  Exceptions that the Python code catches are
modelled by the corresponding total functions.
-/

namespace Videoh

/-- JSON-like values stored in metadata records.  Every list-valued field the
program ever writes (`genres`, `director`, `cast`) is a list of strings, so
lists are embedded as `strList`. -/
inductive JVal where
  | null
  | jbool (b : Bool)
  | num (q : Rat)
  | str (s : String)
  | strList (xs : List String)
deriving DecidableEq, Repr

/-- One metadata record: a Python dict from field name to value. -/
abbrev MetadataRecord := List (String × JVal)

/-- Python dict lookup `m.get(k)` on an association list (first binding wins;
a well-formed dict has distinct keys). -/
def dictGet {α : Type} (m : List (String × α)) (k : String) : Option α :=
  match m with
  | [] => none
  | (k', v) :: rest => if k' = k then some v else dictGet rest k

/-- Python `m.get(k, d)`. -/
def dictGetD {α : Type} (m : List (String × α)) (k : String) (d : α) : α :=
  (dictGet m k).getD d

/-- Python dict assignment `m[k] = v`: replaces the value in place if the key
exists, otherwise appends the new binding (insertion order preserved). -/
def dictSet {α : Type} (m : List (String × α)) (k : String) (v : α) :
    List (String × α) :=
  match m with
  | [] => [(k, v)]
  | (k', v') :: rest =>
      if k' = k then (k, v) :: rest else (k', v') :: dictSet rest k v

/-- The keys of a dict, in insertion order. -/
def dictKeys {α : Type} (m : List (String × α)) : List String :=
  m.map Prod.fst

/-- Python dict merge `{**a, **b}`: start from `a`, then assign every binding
of `b` in order, so `b` wins on key collisions. -/
def dictMerge (a b : MetadataRecord) : MetadataRecord :=
  b.foldl (fun acc p => dictSet acc p.1 p.2) a

/-- Python truthiness of a JSON value. -/
def jTruthy : JVal → Bool
  | .null => false
  | .jbool b => b
  | .num q => q != 0
  | .str s => s != ""
  | .strList xs => !xs.isEmpty

/-- Truthiness of the result of `m.get(k)` (missing key gives `None`). -/
def optTruthy (o : Option JVal) : Bool :=
  match o with
  | none => false
  | some v => jTruthy v

/-- The state of `metadata.json` on disk: absent, present but unparseable
(this also covers an empty file), or a parsed JSON object. -/
inductive FileDoc where
  | missing
  | malformed
  | doc (m : List (String × MetadataRecord))
deriving DecidableEq

/-- The whole persisted mapping: file path or `show:<name>` to record. -/
abbrev MetaStore := List (String × MetadataRecord)

/-- The metadata store seen by `VideohWindow`: the in-memory dict
`self.metadata` plus the on-disk document `metadata.json`. -/
structure StoreState where
  metadata : MetaStore
  file : FileDoc
deriving DecidableEq

/-- `setup_directories` (window.py 145-154): if `metadata.json` does not
exist it is created holding the text `"{}"`, i.e. the empty mapping. -/
def setup_directories (f : FileDoc) : FileDoc :=
  match f with
  | .missing => .doc []
  | other => other

/-- The metadata-loading part of `load_library` (window.py 156-162):
`json.load` of the document; `json.JSONDecodeError` is caught and gives the
empty dict; a missing file raises `FileNotFoundError` (not caught there). -/
def load_metadata (f : FileDoc) : Except String MetaStore :=
  match f with
  | .missing => .error "FileNotFoundError"
  | .malformed => .ok []
  | .doc m => .ok m

/-- The store-load operation of the spec: at startup `setup_directories`
runs before `load_library`, so a missing document is first replaced by the
empty one and then parsed. -/
def load_after_setup (f : FileDoc) : Except String MetaStore :=
  load_metadata (setup_directories f)

/-- `save_metadata` (window.py 214-216): serialize the full in-memory
mapping into the file, replacing its previous contents. -/
def save_metadata (st : StoreState) : StoreState :=
  { st with file := .doc st.metadata }

/-- `update_metadata` (window.py 218-223): set one key in the dict, then
persist the whole store.  (The subsequent `load_library` call re-reads the
file it just wrote, leaving `self.metadata` at the same mapping.) -/
def update_metadata (st : StoreState) (key : String) (r : MetadataRecord) :
    StoreState :=
  save_metadata { st with metadata := dictSet st.metadata key r }

/-- ASCII lowercasing of one character, as Python `str.lower` acts on the
ASCII names this program handles. -/
def asciiLower (c : Char) : Char :=
  if 65 ≤ c.toNat ∧ c.toNat ≤ 90 then Char.ofNat (c.toNat + 32) else c

/-- Python `s.lower()` (ASCII fragment). -/
def pyLower (s : String) : String :=
  ⟨s.data.map asciiLower⟩

/-- Python whitespace as stripped by `str.strip()`. -/
def isPySpace (c : Char) : Bool :=
  c = ' ' ∨ c = '\t' ∨ c = '\n' ∨ c = '\r' ∨ c = '\x0b' ∨ c = '\x0c'

/-- Python `s.strip()`. -/
def pyStrip (s : String) : String :=
  ⟨((s.data.dropWhile isPySpace).reverse.dropWhile isPySpace).reverse⟩

/-- Python `s.replace("season", "")`: remove every non-overlapping
occurrence of `"season"`, scanning left to right. -/
def removeSeasonWord : List Char → List Char
  | 's' :: 'e' :: 'a' :: 's' :: 'o' :: 'n' :: rest => removeSeasonWord rest
  | c :: rest => c :: removeSeasonWord rest
  | [] => []

/-- ASCII decimal digit test (the `\d` of the episode regex on the ASCII
names this program handles). -/
def isDigitCh (c : Char) : Bool :=
  48 ≤ c.toNat ∧ c.toNat ≤ 57

/-- Numeric value of a digit run, as Python `int` reads it. -/
def digitsToNat (ds : List Char) : Nat :=
  ds.foldl (fun a c => 10 * a + (c.toNat - 48)) 0

/-- Greedy run of digits: `(matched digits, rest)`. -/
def takeDigits (s : List Char) : List Char × List Char :=
  match s with
  | [] => ([], [])
  | c :: rest =>
      if isDigitCh c then
        let (d, r) := takeDigits rest
        (c :: d, r)
      else ([], s)

/-- The final path component (what `pathlib` calls the name). -/
def baseNameChars (s : List Char) : List Char :=
  (s.reverse.takeWhile (fun c => c ≠ '/')).reverse

/-- `(stem, suffix)` of a path name, following `pathlib`: the suffix starts
at the last dot provided that dot is neither the first nor the last
character of the name; otherwise the suffix is empty. -/
def splitExt (name : List Char) : List Char × List Char :=
  let rev := name.reverse
  let ext := rev.takeWhile (fun c => c ≠ '.')
  if ext.length = rev.length then (name, [])
  else if ext.isEmpty then (name, [])
  else if (rev.drop (ext.length + 1)).isEmpty then (name, [])
  else ((rev.drop (ext.length + 1)).reverse, '.' :: ext.reverse)

/-- Python `Path(p).suffix`. -/
def pySuffix (p : String) : String :=
  ⟨(splitExt (baseNameChars p.data)).2⟩

/-- Python `Path(p).stem`. -/
def pyStem (p : String) : String :=
  ⟨(splitExt (baseNameChars p.data)).1⟩

/-- The scanner's extension allow-list (window.py 168, 189, 199). -/
def videoExts : List String :=
  [".mp4", ".mkv", ".avi", ".webm"]

/-- `file.suffix.lower() in ['.mp4', '.mkv', '.avi', '.webm']`. -/
def isVideoName (p : String) : Bool :=
  videoExts.contains (pyLower (pySuffix p))

/-- Alternative 1 of the episode regex, tried at one position:
`[Ss]\d+[Ee](\d+)`, returning the captured episode digits. -/
def altSE (s : List Char) : Option Nat :=
  match s with
  | [] => none
  | c :: rest =>
      if c = 'S' ∨ c = 's' then
        let (d1, r1) := takeDigits rest
        if d1.isEmpty then none
        else
          match r1 with
          | [] => none
          | e :: r2 =>
              if e = 'E' ∨ e = 'e' then
                let (d2, _) := takeDigits r2
                if d2.isEmpty then none else some (digitsToNat d2)
              else none
      else none

/-- Alternative 2 of the episode regex, tried at one position:
`[Ee](\d+)`. -/
def altE (s : List Char) : Option Nat :=
  match s with
  | [] => none
  | e :: r =>
      if e = 'E' ∨ e = 'e' then
        let (d, _) := takeDigits r
        if d.isEmpty then none else some (digitsToNat d)
      else none

/-- Alternative 3 of the episode regex, tried at one position:
`(\d+)$` — it succeeds exactly when the remainder of the string is a
non-empty digit run. -/
def altEnd (s : List Char) : Option Nat :=
  if s ≠ [] ∧ s.all isDigitCh then some (digitsToNat s) else none

/-- One `re.search` attempt at a single position: Python tries the three
alternatives of `[Ss]\d+[Ee](\d+)|[Ee](\d+)|(\d+)$` in order. -/
def anyAltAt (s : List Char) : Option Nat :=
  (altSE s).orElse fun _ => (altE s).orElse fun _ => altEnd s

/-- `re.search` over the whole string: positions are scanned left to right
and the first position where some alternative matches wins. -/
def reSearchEp (s : List Char) : Option Nat :=
  match s with
  | [] => none
  | c :: rest =>
      match anyAltAt (c :: rest) with
      | some n => some n
      | none => reSearchEp rest

/-- `_get_episode_number` (window.py 739-747): `re.search` with the episode
pattern, converting the first non-`None` capture group with `int`; no match
gives `None`.  (The surrounding `try` never fires: `int` on a digit run
cannot raise.) -/
def get_episode_number (filename : String) : Option Nat :=
  reSearchEp filename.data

/-- Episode-number extraction for one media file: the call site
(window.py 357) passes `episode['title']`, which the scanner sets to the
file's stem, so the regex runs on the filename without its extension. -/
def episodeNumberOfFile (filename : String) : Option Nat :=
  get_episode_number (pyStem filename)

/-- Modelled from the spec: the extraction order the spec describes —
pattern `S<season>E<number>` applied anywhere first, then `E<number>`
anywhere, then trailing digits; each pattern is searched in the whole
string before the next one is tried. -/
def searchOneAlt (alt : List Char → Option Nat) (s : List Char) : Option Nat :=
  match s with
  | [] => none
  | c :: rest =>
      match alt (c :: rest) with
      | some n => some n
      | none => searchOneAlt alt rest

/-- Modelled from the spec: spec-ordered episode-number extraction (see
`searchOneAlt`), for comparison with `get_episode_number`. -/
def spec_episode_number (filename : String) : Option Nat :=
  ((searchOneAlt altSE filename.data).orElse fun _ =>
    (searchOneAlt altE filename.data).orElse fun _ =>
      searchOneAlt altEnd filename.data)

/-- One entry returned by a directory glob: its path (or name, for entries
inside one directory) and whether it is a regular file. -/
structure FsEntry where
  path : String
  isFile : Bool
deriving DecidableEq, Repr

/-- One movie entry of the in-memory catalog (window.py 169-173). -/
structure MovieEntry where
  path : String
  title : String
  metadata : MetadataRecord
deriving DecidableEq, Repr

/-- The movie part of `load_library` (window.py 164-174): every entry of
`movies_path.glob("**/*")` that is a file with an allow-listed extension
becomes a movie entry; `entries` is the glob listing of the movies root. -/
def scanMovies (store : MetaStore) (entries : List FsEntry) : List MovieEntry :=
  entries.filterMap fun e =>
    if e.isFile && isVideoName e.path then
      some { path := e.path, title := pyStem e.path,
             metadata := dictGetD store e.path [] }
    else none

/-- One episode entry of the in-memory catalog (window.py 190-195). -/
structure Episode where
  path : String
  title : String
  season : String
  metadata : MetadataRecord
deriving DecidableEq, Repr

/-- One entry of `show_dir.iterdir()`: a file, or a subdirectory together
with its `glob("*")` listing. -/
inductive ShowItem where
  | fileItem (name : String)
  | dirItem (name : String) (entries : List FsEntry)
deriving DecidableEq, Repr

/-- The season map of one show: season number to episode list. -/
abbrev Seasons := List (String × List Episode)

/-- `item.name.lower().replace("season", "").strip()` (window.py 186). -/
def seasonNumOf (dirName : String) : String :=
  pyStrip ⟨removeSeasonWord (pyLower dirName).data⟩

/-- `item.name.lower().startswith("season")` (window.py 184). -/
def startsWithSeason (dirName : String) : Bool :=
  "season".data.isPrefixOf (pyLower dirName).data

/-- Processing of one `iterdir` entry of a show directory
(window.py 183-209): a `season*` subdirectory contributes its video files
under the parsed season number (only when it has at least one), any other
subdirectory is skipped, and a video file directly in the show directory is
appended to season `"1"` (creating it when absent).  `seasonEpisodes` is
the inner loop building one season directory's episode list
(window.py 187-196). -/
def seasonEpisodes (store : MetaStore) (showPath dname : String)
    (entries : List FsEntry) : List Episode :=
  entries.filterMap fun e =>
    if e.isFile && isVideoName e.path then
      some { path := showPath ++ "/" ++ dname ++ "/" ++ e.path,
             title := pyStem e.path, season := seasonNumOf dname,
             metadata :=
               dictGetD store (showPath ++ "/" ++ dname ++ "/" ++ e.path) [] }
    else none

def showStep (store : MetaStore) (showPath : String) (seasons : Seasons)
    (item : ShowItem) : Seasons :=
  match item with
  | .dirItem dname entries =>
      if startsWithSeason dname then
        let eps := seasonEpisodes store showPath dname entries
        if eps.isEmpty then seasons
        else dictSet seasons (seasonNumOf dname) eps
      else seasons
  | .fileItem fname =>
      if isVideoName fname then
        let ep : Episode :=
          { path := showPath ++ "/" ++ fname, title := pyStem fname,
            season := "1",
            metadata := dictGetD store (showPath ++ "/" ++ fname) [] }
        if (dictGet seasons "1").isSome then
          seasons.map fun p => if p.1 = "1" then (p.1, p.2 ++ [ep]) else p
        else seasons ++ [("1", [ep])]
      else seasons

/-- The season map produced for one show directory (window.py 181-209). -/
def scanShow (store : MetaStore) (showPath : String)
    (items : List ShowItem) : Seasons :=
  items.foldl (showStep store showPath) []

/-- One entry of `shows_path.iterdir()`: a stray file, or a show directory
with its own `iterdir` listing. -/
inductive RootItem where
  | fileEntry (name : String)
  | dirEntry (name : String) (items : List ShowItem)
deriving DecidableEq, Repr

/-- Processing of one `shows_path.iterdir()` entry (window.py 179-212):
non-directories are skipped, and a show directory is entered into the show
map only when its scan produced at least one season. -/
def showsStep (store : MetaStore) (root : String)
    (acc : List (String × Seasons)) (item : RootItem) :
    List (String × Seasons) :=
  match item with
  | .fileEntry _ => acc
  | .dirEntry name items =>
      let seasons := scanShow store (root ++ "/" ++ name) items
      if seasons.isEmpty then acc else dictSet acc name seasons

/-- The show part of `load_library` (window.py 176-212). -/
def scanShows (store : MetaStore) (root : String)
    (dirs : List RootItem) : List (String × Seasons) :=
  dirs.foldl (showsStep store root) []

/-- An `iterdir` entry of a show directory that contributes no episode: a
non-video file, a subdirectory not named `season*`, or a `season*`
subdirectory without any supported video file. -/
def itemNoEpisodes : ShowItem → Bool
  | .fileItem fname => !(isVideoName fname)
  | .dirItem dname entries =>
      !(startsWithSeason dname) ||
        entries.all fun e => !(e.isFile && isVideoName e.path)

/-- Every season of a season map has at least one episode. -/
def seasonsOk (s : Seasons) : Prop :=
  ∀ sn eps, (sn, eps) ∈ s → eps ≠ []

/-- Every show of a show map has at least one season and every season of it
at least one episode. -/
def showMapOk (m : List (String × Seasons)) : Prop :=
  ∀ name seasons, (name, seasons) ∈ m → seasons ≠ [] ∧ seasonsOk seasons

/-- Python `str()` as used by the f-string `f"show:..."` (window.py 753):
rendered exactly for the values this program stores under `show_name` (a
string, or absent giving `None`); the remaining constructors use their Lean
rendering as a stand-in for Python's. -/
def fstr (o : Option JVal) : String :=
  match o with
  | none => "None"
  | some .null => "None"
  | some (.jbool true) => "True"
  | some (.jbool false) => "False"
  | some (.num q) => if q.den = 1 then toString q.num else toString q
  | some (.str s) => s
  | some (.strList xs) => toString xs

/-- `get_episode_metadata` (window.py 749-757): for a record whose
`is_episode` field is truthy, merge the `show:<show_name>` record under the
episode record (`{**show_metadata, **metadata}`); otherwise return the
record (or the empty one) unchanged. -/
def get_episode_metadata (store : MetaStore) (episode_path : String) :
    MetadataRecord :=
  let md := dictGetD store episode_path []
  if optTruthy (dictGet md "is_episode") then
    let show_md := dictGetD store ("show:" ++ fstr (dictGet md "show_name")) []
    dictMerge show_md md
  else md

/-- Optional sign at the head of a numeric literal: `(negative, rest)`. -/
def parseSign (s : List Char) : Bool × List Char :=
  match s with
  | '+' :: r => (false, r)
  | '-' :: r => (true, r)
  | _ => (false, s)

/-- Exponent application for `float()` literals: everything after the
`e`/`E` must be an optionally signed digit run. -/
def applyExp (m : Rat) (s : List Char) : Option Rat :=
  let (neg, r1) := parseSign s
  let (ds, r2) := takeDigits r1
  if ds.isEmpty ∨ !r2.isEmpty then none
  else some (if neg then m / (10 : Rat) ^ digitsToNat ds
             else m * (10 : Rat) ^ digitsToNat ds)

/-- Python `float(s)` on a string (the decimal fragment: optional
whitespace and sign, digits with optional fraction and exponent; the
special forms `inf`/`nan`/underscores are outside the modelled fragment).
Returns `none` where Python raises `ValueError`. -/
def pyFloatChars (s0 : List Char) : Option Rat :=
  let s := ((s0.dropWhile isPySpace).reverse.dropWhile isPySpace).reverse
  let (neg, r0) := parseSign s
  let (ip, r1) := takeDigits r0
  let hasDot := match r1 with | '.' :: _ => true | _ => false
  let (fp, r2) := if hasDot then takeDigits r1.tail else ([], r1)
  if ip.isEmpty ∧ fp.isEmpty then none
  else
    let mant : Rat :=
      (digitsToNat ip : Rat) + (digitsToNat fp : Rat) / (10 : Rat) ^ fp.length
    let signed := if neg then -mant else mant
    match r2 with
    | [] => some signed
    | 'e' :: r3 => applyExp signed r3
    | 'E' :: r3 => applyExp signed r3
    | _ => none

/-- Python `float(v)`: numbers pass through, booleans become 0/1, strings
are parsed, `None` and lists raise. -/
def pyFloat (v : JVal) : Except String Rat :=
  match v with
  | .num q => .ok q
  | .jbool true => .ok 1
  | .jbool false => .ok 0
  | .str s =>
      match pyFloatChars s.data with
      | some q => .ok q
      | none => .error "ValueError: could not convert string to float"
  | .null => .error "TypeError: float() argument cannot be None"
  | .strList _ => .error "TypeError: float() argument cannot be a list"

/-- Python `v or 0`. -/
def pyOrZero (v : JVal) : JVal :=
  if jTruthy v then v else .num 0

/-- `x.get('metadata', ...).get('rating', 0)` of the sort key. -/
def ratingValue (md : MetadataRecord) : JVal :=
  dictGetD md "rating" (.num 0)

/-- The movie sort key `float(x.get('metadata', dict()).get('rating', 0)
or 0)` (window.py 809-810); raises where `float` does. -/
def movieRatingKey (m : MovieEntry) : Except String Rat :=
  pyFloat (pyOrZero (ratingValue m.metadata))

/-- The show sort key (window.py 811-812), looked up through the store
under the `show:<name>` key. -/
def showRatingKey (store : MetaStore) (name : String) : Except String Rat :=
  pyFloat (pyOrZero (ratingValue (dictGetD store ("show:" ++ name) [])))

instance {α : Type} :
    DecidableRel (fun (p q : Rat × α) => p.1 ≤ q.1) :=
  fun p q => inferInstanceAs (Decidable (p.1 ≤ q.1))

instance {α : Type} : IsTotal (Rat × α) (fun p q => p.1 ≤ q.1) :=
  ⟨fun a b => le_total a.1 b.1⟩

instance {α : Type} : IsTrans (Rat × α) (fun p q => p.1 ≤ q.1) :=
  ⟨fun _ _ _ h1 h2 => le_trans h1 h2⟩

/-- Python `sorted(items, key=f)`: the key is computed for every item in
order (the first raising key aborts the whole call), then the items are
sorted stably and ascending by key.  Python's stable sort is modelled by
stable insertion sort. -/
def pySorted {α : Type} (f : α → Except String Rat) (l : List α) :
    Except String (List α) := do
  let ks ← l.mapM fun a => (f a).map fun q => (q, a)
  pure ((List.insertionSort (fun p q => p.1 ≤ q.1) ks).map Prod.snd)

/-- `sorted(self.movies, key=...)` for `sort_type == 'rating'`
(window.py 809-810). -/
def sortMoviesByRating (movies : List MovieEntry) :
    Except String (List MovieEntry) :=
  pySorted movieRatingKey movies

/-- `dict(sorted(self.shows.items(), key=...))` for
`sort_type == 'rating'` (window.py 811-812). -/
def sortShowsByRating (store : MetaStore)
    (shows : List (String × Seasons)) :
    Except String (List (String × Seasons)) :=
  pySorted (fun p => showRatingKey store p.1) shows

/-- `int(s)` on a string: optional whitespace, sign, digit run. -/
def pyInt (s : String) : Except String Int :=
  let t := ((s.data.dropWhile isPySpace).reverse.dropWhile isPySpace).reverse
  let (neg, r0) := parseSign t
  let (ds, r1) := takeDigits r0
  if ds.isEmpty ∨ !r1.isEmpty then
    .error "ValueError: invalid literal for int"
  else .ok (if neg then -(digitsToNat ds : Int) else (digitsToNat ds : Int))

/-- One IMDb search result: `getID()` / `get('movieID')` can yield an id
or `None` (window.py 286). -/
structure SearchResult where
  movieId : Option String
deriving DecidableEq, Repr

/-- The fields of an IMDb movie object that `_fetch_movie_metadata` reads
(window.py 292-304). -/
structure MovieData where
  title : Option JVal
  year : Option JVal
  rating : Option JVal
  plot_outline : Option JVal
  director : List String
  cast : List String
  genres : List String
  coverUrl : Option String
deriving DecidableEq, Repr

/-- `None` for a missing field, as `dict.get` returns it. -/
def optJ (o : Option JVal) : JVal :=
  o.getD .null

/-- The metadata dict built for one movie (window.py 292-301). -/
def buildMovieRecord (d : MovieData) : MetadataRecord :=
  [("title", optJ d.title), ("year", optJ d.year),
   ("rating", optJ d.rating),
   ("plot", d.plot_outline.getD (.str "")),
   ("director", .strList d.director),
   ("cast", .strList (d.cast.take 5)),
   ("genres", .strList d.genres), ("type", .str "movie")]

/-- The IMDb provider together with `download_poster` (window.py 225-253),
whose network and file effects are oracles here; `download_poster` catches
its own errors and returns `None`, so it is total. -/
structure ImdbClient where
  search_movie : String → Except String (List SearchResult)
  get_movie : String → Except String MovieData
  download_poster : String → String → Option String

/-- The body of `_fetch_movie_metadata` (window.py 280-313), without the
surrounding `try`: an `Except.error` is an exception escaping the body.
Every store mutation of the body is its final `update_metadata` call, so a
raised exception leaves the store untouched. -/
def fetch_movie_body (c : ImdbClient) (movie : MovieEntry)
    (st : StoreState) : Except String StoreState := do
  let results ← c.search_movie movie.title
  match results with
  | [] => pure st
  | first :: _ =>
      match first.movieId with
      | none => pure st
      | some mid => do
          let d ← c.get_movie mid
          let md0 := buildMovieRecord d
          let md :=
            match d.coverUrl with
            | some url =>
                if url ≠ "" then
                  match c.download_poster url movie.title with
                  | some p =>
                      if p ≠ "" then dictSet md0 "poster" (.str p) else md0
                  | none => md0
                else md0
            | none => md0
          pure (update_metadata st movie.path md)

/-- `_fetch_movie_metadata` (window.py 278-316): the whole body runs under
`try`, and `except Exception` prints and falls through, so the caller
always gets a normal return. -/
def fetch_movie_metadata (c : ImdbClient) (movie : MovieEntry)
    (st : StoreState) : StoreState :=
  match fetch_movie_body c movie st with
  | .ok st' => st'
  | .error _ => st

/-- The movie loop of `fetch_metadata_async` (window.py 440-444), with the
progress dialog alive throughout (cancellation is a separate mechanism and
is not modelled). -/
def fetchMoviesPass (c : ImdbClient) (movies : List MovieEntry)
    (st : StoreState) : StoreState :=
  movies.foldl (fun s m => fetch_movie_metadata c m s) st

/-- The fields of one TVMaze episode record that
`_fetch_show_metadata` reads (window.py 360-376). -/
structure TvEpisodeData where
  season : Int
  number : Int
  name : Option JVal
  summary : Option JVal
  airdate : Option JVal
deriving DecidableEq, Repr

/-- The fields of one TVMaze show record that `_fetch_show_metadata` reads
(window.py 324-352). -/
structure TvShowData where
  id : Nat
  name : Option JVal
  premiered : String
  ratingAvg : Option JVal
  summary : Option JVal
  genres : List String
  status : Option JVal
  network : Option JVal
  imageUrl : Option String
deriving DecidableEq, Repr

/-- The TVMaze provider plus poster download, as oracles. -/
structure TvClient where
  search_shows : String → Except String (List TvShowData)
  get_show_episodes : Nat → Except String (List TvEpisodeData)
  download_poster : String → String → Option String

/-- The show-level metadata dict (window.py 327-336):
`year` is `premiered.split('-')[0]` with `''` default. -/
def buildShowRecord (d : TvShowData) : MetadataRecord :=
  [("title", optJ d.name),
   ("year", .str ⟨d.premiered.data.takeWhile (fun c => c ≠ '-')⟩),
   ("rating", optJ d.ratingAvg),
   ("plot", d.summary.getD (.str "")),
   ("genres", .strList d.genres),
   ("type", .str "show"),
   ("status", optJ d.status),
   ("network", optJ d.network)]

/-- The episode-level metadata dict (window.py 368-376). -/
def buildEpisodeRecord (te : TvEpisodeData) (season_num : String) (n : Nat)
    (show_name : String) : MetadataRecord :=
  [("title", optJ te.name), ("plot", te.summary.getD (.str "")),
   ("air_date", optJ te.airdate), ("season", .str season_num),
   ("episode", .num n), ("is_episode", .jbool true),
   ("show_name", .str show_name)]

/-- Processing of one local episode (window.py 356-379).  Errors carry the
store state reached so far, because the caller's `except` does not roll
back: `int(season_num)` is evaluated inside the matching generator, so it
can only raise when the provider episode list is non-empty, and the check
`if episode_number:` skips episode number 0 as falsy. -/
def fetch_show_episode_step (epsData : List TvEpisodeData)
    (season_num show_name : String) (st : StoreState) (ep : Episode) :
    Except (String × StoreState) StoreState :=
  match get_episode_number ep.title with
  | none => .ok st
  | some n =>
      if n = 0 then .ok st
      else
        match epsData with
        | [] => .ok st
        | _ :: _ =>
            match pyInt season_num with
            | .error e => .error (e, st)
            | .ok sInt =>
                match epsData.find?
                    (fun e2 => e2.season == sInt && e2.number == (n : Int)) with
                | some te =>
                    .ok (update_metadata st ep.path
                      (buildEpisodeRecord te season_num n show_name))
                | none => .ok st

/-- The body of `_fetch_show_metadata` (window.py 320-379) without the
surrounding `try`.  The show record is written straight into the dict
(no save), then each local episode is matched against the provider's
episode list; an `Except.error` carries the partially updated store that
the caught exception leaves behind. -/
def fetch_show_body (tv : TvClient) (show_name : String) (seasons : Seasons)
    (st : StoreState) : Except (String × StoreState) StoreState :=
  match tv.search_shows show_name with
  | .error e => .error (e, st)
  | .ok [] => .ok st
  | .ok (d :: _) =>
      let md0 := buildShowRecord d
      let md :=
        match d.imageUrl with
        | some url =>
            if url ≠ "" then
              match tv.download_poster url show_name with
              | some p => if p ≠ "" then dictSet md0 "poster" (.str p) else md0
              | none => md0
            else md0
        | none => md0
      let st1 : StoreState :=
        { st with metadata := dictSet st.metadata ("show:" ++ show_name) md }
      match tv.get_show_episodes d.id with
      | .error e => .error (e, st1)
      | .ok epsData =>
          seasons.foldlM
            (fun acc p =>
              p.2.foldlM (fetch_show_episode_step epsData p.1 show_name) acc)
            st1

/-- `_fetch_show_metadata` (window.py 318-382): `except Exception` prints
and falls through, keeping whatever the body already wrote. -/
def fetch_show_metadata (tv : TvClient) (show_name : String)
    (seasons : Seasons) (st : StoreState) : StoreState :=
  match fetch_show_body tv show_name seasons st with
  | .ok st' => st'
  | .error (_, stErr) => stErr

/-- The show loop of `fetch_metadata_async` (window.py 450-454). -/
def fetchShowsPass (tv : TvClient) (shows : List (String × Seasons))
    (st : StoreState) : StoreState :=
  shows.foldl (fun s p => fetch_show_metadata tv p.1 p.2 s) st

/-- A movie-provider client whose every network call raises. -/
def failingImdb : ImdbClient :=
  ⟨fun _ => .error "HTTPError", fun _ => .error "HTTPError",
    fun _ _ => none⟩

/-- A show-provider client whose every network call raises. -/
def failingTv : TvClient :=
  ⟨fun _ => .error "HTTPError", fun _ => .error "HTTPError",
    fun _ _ => none⟩

/-- A concrete movie entry. -/
def movieA : MovieEntry :=
  ⟨"/m/A.mp4", "A", []⟩

/-- A second concrete movie entry. -/
def movieB : MovieEntry :=
  ⟨"/m/B.mp4", "B", []⟩

/-- A store with nothing in it, persisted as the empty document. -/
def emptyStore : StoreState :=
  ⟨[], .doc []⟩

/-- The spec's merge example, episode side: a record flagged as an episode
of show `X`. -/
def exEpisodeMd : MetadataRecord :=
  [("is_episode", JVal.jbool true), ("show_name", JVal.str "X"),
   ("title", JVal.str "Ep1")]

/-- The spec's merge example, store side: genres at `show:X` and the
episode record at the episode's path. -/
def exMergeStore : MetaStore :=
  [("show:X", [("genres", JVal.strList ["A"])]),
   ("/shows/X/Ep1.mp4", exEpisodeMd)]

section DictLemmas

theorem dictGet_dictSet_self {α : Type} (m : List (String × α)) (k : String)
    (v : α) : dictGet (dictSet m k v) k = some v := by
  induction m with
  | nil => simp [dictSet, dictGet]
  | cons p rest ih =>
      obtain ⟨k', v'⟩ := p
      by_cases h : k' = k
      · simp [dictSet, dictGet, h]
      · simp [dictSet, dictGet, h, ih]

theorem dictGet_dictSet_ne {α : Type} (m : List (String × α)) (k k' : String)
    (v : α) (h : k' ≠ k) : dictGet (dictSet m k v) k' = dictGet m k' := by
  have hke : ¬(k = k') := fun e => h e.symm
  induction m with
  | nil => simp [dictSet, dictGet, hke]
  | cons p rest ih =>
      obtain ⟨k₀, v₀⟩ := p
      by_cases hk : k₀ = k
      · subst hk
        simp [dictSet, dictGet, hke]
      · by_cases hk' : k₀ = k'
        · subst hk'
          simp [dictSet, dictGet, hk]
        · simp [dictSet, dictGet, hk, hk', ih]

end DictLemmas

/-- Claim C1: Metadata Store round-trip.  For every store state, key and
record, `update_metadata key record` followed by loading the persisted
document yields a mapping that holds exactly that record at that key, and
the update wrote the entire updated mapping to the file in one shot. -/
theorem store_round_trip (st : StoreState) (key : String)
    (r : MetadataRecord) :
    load_metadata (update_metadata st key r).file =
      .ok (dictSet st.metadata key r) ∧
    dictGet (dictSet st.metadata key r) key = some r ∧
    (update_metadata st key r).file =
      .doc (update_metadata st key r).metadata := by
  refine ⟨rfl, dictGet_dictSet_self _ _ _, rfl⟩

/-- Claim C2: the store load (directory setup followed by `load_library`)
tolerates a missing document and a malformed one: both give the empty
mapping, and no input document state makes the load fail. -/
theorem load_tolerates_missing_and_malformed :
    load_after_setup .missing = .ok [] ∧
    load_after_setup .malformed = .ok [] ∧
    ∀ f : FileDoc, (load_after_setup f).isOk = true := by
  refine ⟨rfl, rfl, ?_⟩
  intro f
  cases f <;> rfl

/-- Claim C9: frame property of `update_metadata`.  Updating one key leaves
every other key of the mapping unchanged, both in memory and in the
persisted document. -/
theorem update_metadata_frame (st : StoreState) (key k' : String)
    (r : MetadataRecord) (h : k' ≠ key) :
    dictGet (update_metadata st key r).metadata k' = dictGet st.metadata k' ∧
    load_metadata (update_metadata st key r).file =
      .ok (update_metadata st key r).metadata := by
  exact ⟨dictGet_dictSet_ne _ _ _ _ h, rfl⟩

/-- Witness for C9 at a concrete store: updating `"a"` leaves `"b"` as it
was. -/
theorem update_metadata_frame_witness :
    dictGet (update_metadata
        { metadata := [("b", [("title", JVal.str "B")])], file := .doc [] }
        "a" [("title", JVal.str "A")]).metadata "b" =
      dictGet [("b", [("title", JVal.str "B")])] "b" ∧
    load_metadata (update_metadata
        { metadata := [("b", [("title", JVal.str "B")])], file := .doc [] }
        "a" [("title", JVal.str "A")]).file =
      .ok (update_metadata
        { metadata := [("b", [("title", JVal.str "B")])], file := .doc [] }
        "a" [("title", JVal.str "A")]).metadata :=
  update_metadata_frame
    { metadata := [("b", [("title", JVal.str "B")])], file := .doc [] }
    "a" "b" [("title", JVal.str "A")] (by decide)

section ScanLemmas

theorem mem_dictSet {α : Type} {m : List (String × α)} {k : String} {v : α}
    {p : String × α} (h : p ∈ dictSet m k v) : p ∈ m ∨ p = (k, v) := by
  induction m with
  | nil =>
      simp [dictSet] at h
      right
      exact h
  | cons q rest ih =>
      obtain ⟨k0, v0⟩ := q
      by_cases hk : k0 = k
      · simp only [dictSet, if_pos hk] at h
        rcases List.mem_cons.mp h with h1 | h1
        · right; exact h1
        · left; exact List.mem_cons_of_mem _ h1
      · simp only [dictSet, if_neg hk] at h
        rcases List.mem_cons.mp h with h1 | h1
        · left
          subst h1
          exact List.mem_cons_self _ _
        · rcases ih h1 with h2 | h2
          · left; exact List.mem_cons_of_mem _ h2
          · right; exact h2

theorem dictGet_mem {α : Type} {m : List (String × α)} {k : String} {v : α}
    (h : dictGet m k = some v) : (k, v) ∈ m := by
  induction m with
  | nil => simp [dictGet] at h
  | cons q rest ih =>
      obtain ⟨k0, v0⟩ := q
      by_cases hk : k0 = k
      · subst hk
        simp only [dictGet, if_pos rfl] at h
        injection h with hv
        subst hv
        exact List.mem_cons_self _ _
      · simp only [dictGet, if_neg hk] at h
        exact List.mem_cons_of_mem _ (ih h)

theorem seasonsOk_dictSet {s : Seasons} {k : String} {v : List Episode}
    (hs : seasonsOk s) (hv : v ≠ []) : seasonsOk (dictSet s k v) := by
  intro sn eps hmem
  rcases mem_dictSet hmem with h | h
  · exact hs sn eps h
  · injection h with h1 h2
    subst h2
    exact hv

theorem seasonsOk_showStep (store : MetaStore) (base : String)
    {s : Seasons} (item : ShowItem) (hs : seasonsOk s) :
    seasonsOk (showStep store base s item) := by
  cases item with
  | dirItem dname entries =>
      simp only [showStep]
      split_ifs with h1 h2
      · exact hs
      · exact seasonsOk_dictSet hs
          (fun hnil => h2 (by rw [hnil]; rfl))
      · exact hs
  | fileItem fname =>
      simp only [showStep]
      split_ifs with h1 h2
      · intro sn eps hmem
        rw [List.mem_map] at hmem
        obtain ⟨p, hp, heq⟩ := hmem
        by_cases hp1 : p.1 = "1"
        · rw [if_pos hp1] at heq
          injection heq with e1 e2
          subst e2
          simp
        · rw [if_neg hp1] at heq
          exact hs sn eps (heq ▸ hp)
      · intro sn eps hmem
        rcases List.mem_append.mp hmem with h | h
        · exact hs sn eps h
        · simp only [List.mem_singleton] at h
          injection h with e1 e2
          subst e2
          simp
      · exact hs

theorem seasonsOk_foldl (store : MetaStore) (base : String)
    (items : List ShowItem) :
    ∀ s : Seasons, seasonsOk s →
      seasonsOk (List.foldl (showStep store base) s items) := by
  induction items with
  | nil => intro s hs; simpa using hs
  | cons i rest ih =>
      intro s hs
      simp only [List.foldl_cons]
      exact ih _ (seasonsOk_showStep store base i hs)

theorem seasonsOk_scanShow (store : MetaStore) (base : String)
    (items : List ShowItem) : seasonsOk (scanShow store base items) :=
  seasonsOk_foldl store base items []
    (fun _ _ hm => absurd hm (List.not_mem_nil _))

theorem showMapOk_showsStep (store : MetaStore) (root : String)
    {acc : List (String × Seasons)} (item : RootItem) (h : showMapOk acc) :
    showMapOk (showsStep store root acc item) := by
  cases item with
  | fileEntry n => exact h
  | dirEntry name items =>
      simp only [showsStep]
      split_ifs with he
      · exact h
      · intro n s hmem
        rcases mem_dictSet hmem with hm | hm
        · exact h n s hm
        · injection hm with e1 e2
          subst e2
          exact ⟨fun hnil => he (by rw [hnil]; rfl),
                 seasonsOk_scanShow store _ items⟩

theorem showMapOk_foldl (store : MetaStore) (root : String)
    (dirs : List RootItem) :
    ∀ acc, showMapOk acc →
      showMapOk (List.foldl (showsStep store root) acc dirs) := by
  induction dirs with
  | nil => intro acc h; simpa using h
  | cons d rest ih =>
      intro acc h
      simp only [List.foldl_cons]
      exact ih _ (showMapOk_showsStep store root d h)

theorem showMapOk_scanShows (store : MetaStore) (root : String)
    (dirs : List RootItem) : showMapOk (scanShows store root dirs) :=
  showMapOk_foldl store root dirs []
    (fun _ _ hm => absurd hm (List.not_mem_nil _))

theorem seasonEpisodes_eq_nil (store : MetaStore) (base dname : String)
    (entries : List FsEntry)
    (h : (entries.all fun e => !(e.isFile && isVideoName e.path)) = true) :
    seasonEpisodes store base dname entries = [] := by
  rw [seasonEpisodes, List.filterMap_eq_nil_iff]
  intro e he
  have := List.all_eq_true.mp h e he
  rw [Bool.not_eq_true' ] at this
  simp [this]

theorem showStep_no_video (store : MetaStore) (base : String)
    (seasons : Seasons) (item : ShowItem) (h : itemNoEpisodes item = true) :
    showStep store base seasons item = seasons := by
  cases item with
  | fileItem fname =>
      have hv : isVideoName fname = false := by
        simpa [itemNoEpisodes] using h
      simp [showStep, hv]
  | dirItem dname entries =>
      by_cases hs : startsWithSeason dname
      · have hall : (entries.all fun e =>
            !(e.isFile && isVideoName e.path)) = true := by
          simpa [itemNoEpisodes, hs] using h
        simp [showStep, hs, seasonEpisodes_eq_nil store base dname entries hall]
      · simp [showStep, hs]

theorem scanShow_no_video (store : MetaStore) (base : String)
    (items : List ShowItem) (h : items.all itemNoEpisodes = true) :
    scanShow store base items = [] := by
  induction items with
  | nil => rfl
  | cons i rest ih =>
      rw [List.all_cons, Bool.and_eq_true] at h
      obtain ⟨hi, hrest⟩ := h
      show List.foldl (showStep store base) [] (i :: rest) = []
      rw [List.foldl_cons, showStep_no_video store base [] i hi]
      exact ih hrest

end ScanLemmas

/-- Claim C10: after every scan, every show present in the show map has at
least one season, every season present maps to a non-empty episode list,
and show directories or season subdirectories without any supported video
file contribute nothing to the catalog. -/
theorem catalog_nonempty_invariant :
    (∀ store root dirs name seasons,
        dictGet (scanShows store root dirs) name = some seasons →
          seasons ≠ [] ∧ ∀ sn eps, (sn, eps) ∈ seasons → eps ≠ []) ∧
    (∀ store base seasons item, itemNoEpisodes item = true →
        showStep store base seasons item = seasons) ∧
    (∀ store base items, items.all itemNoEpisodes = true →
        scanShow store base items = []) := by
  refine ⟨?_, ?_, ?_⟩
  · intro store root dirs name seasons hget
    exact showMapOk_scanShows store root dirs name seasons (dictGet_mem hget)
  · intro store base seasons item h
    exact showStep_no_video store base seasons item h
  · intro store base items h
    exact scanShow_no_video store base items h

/-- Witness for C10 at a concrete catalog: a show with one populated season
directory, a skipped non-video file, and a skipped empty season
directory. -/
theorem catalog_nonempty_invariant_witness :
    (([("2", [⟨"/v/X/Season 2/ep.mp4", "ep", "2", []⟩])] : Seasons) ≠ [] ∧
      ∀ sn eps,
        (sn, eps) ∈
            ([("2", [⟨"/v/X/Season 2/ep.mp4", "ep", "2", []⟩])] : Seasons) →
          eps ≠ []) ∧
    showStep [] "/v/X" [] (ShowItem.fileItem "notes.txt") = [] ∧
    scanShow [] "/v/X" [ShowItem.dirItem "Season 9" []] = [] :=
  ⟨catalog_nonempty_invariant.1 [] "/v"
      [RootItem.dirEntry "X" [ShowItem.dirItem "Season 2" [⟨"ep.mp4", true⟩]]]
      "X" _ rfl,
    catalog_nonempty_invariant.2.1 [] "/v/X" []
      (ShowItem.fileItem "notes.txt") (by decide),
    catalog_nonempty_invariant.2.2 [] "/v/X"
      [ShowItem.dirItem "Season 9" []] (by decide)⟩

section MovieScanLemmas

theorem scanMovies_cons (store : MetaStore) (a : FsEntry) (t : List FsEntry) :
    scanMovies store (a :: t) =
      (if a.isFile && isVideoName a.path then
        [{ path := a.path, title := pyStem a.path,
           metadata := dictGetD store a.path [] }]
      else []) ++ scanMovies store t := by
  by_cases hg : a.isFile && isVideoName a.path
  · simp only [scanMovies, List.filterMap_cons, hg, if_true]
    rfl
  · simp only [scanMovies, List.filterMap_cons]
    rw [if_neg hg, if_neg hg]
    rfl

theorem scanMovies_path_mem (store : MetaStore) (l : List FsEntry)
    (mv : MovieEntry) (h : mv ∈ scanMovies store l) :
    mv.path ∈ l.map FsEntry.path := by
  simp only [scanMovies, List.mem_filterMap] at h
  obtain ⟨e, he, hfe⟩ := h
  rw [List.mem_map]
  refine ⟨e, he, ?_⟩
  by_cases hg : e.isFile && isVideoName e.path
  · rw [if_pos hg] at hfe
    injection hfe with hmv
    rw [← hmv]
  · rw [if_neg hg] at hfe
    exact absurd hfe (by simp)

end MovieScanLemmas

/-- Claim C5: every file under the movies root whose extension is one of
mp4/mkv/avi/webm (case-insensitively) appears exactly once in the movie
list, and an entry that is not such a file appears zero times; `entries`
is the recursive glob listing, whose paths are pairwise distinct. -/
theorem movie_scan_exactly_once (store : MetaStore)
    (entries : List FsEntry) (hnd : (entries.map FsEntry.path).Nodup)
    (e : FsEntry) (he : e ∈ entries) :
    (scanMovies store entries).countP (fun mv => mv.path == e.path) =
      if e.isFile && isVideoName e.path then 1 else 0 := by
  induction entries with
  | nil => cases he
  | cons a t ih =>
      rw [List.map_cons, List.nodup_cons] at hnd
      obtain ⟨hna, hnt⟩ := hnd
      rw [scanMovies_cons, List.countP_append]
      rcases List.mem_cons.mp he with rfl | het
      · have hzero :
            (scanMovies store t).countP (fun mv => mv.path == e.path) = 0 := by
          rw [List.countP_eq_zero]
          intro mv hmv
          have hp := scanMovies_path_mem store t mv hmv
          have hne : mv.path ≠ e.path := fun hq => hna (hq ▸ hp)
          simpa using hne
        rw [hzero]
        by_cases hg : e.isFile && isVideoName e.path
        · rw [if_pos hg, if_pos hg]
          simp
        · rw [if_neg hg, if_neg hg]
          simp
      · have hep : e.path ∈ t.map FsEntry.path :=
          List.mem_map.mpr ⟨e, het, rfl⟩
        have hne : a.path ≠ e.path := fun hq => hna (hq ▸ hep)
        have hhead :
            (if a.isFile && isVideoName a.path then
              [{ path := a.path, title := pyStem a.path,
                 metadata := dictGetD store a.path [] }]
            else ([] : List MovieEntry)).countP
              (fun mv => mv.path == e.path) = 0 := by
          by_cases hg : a.isFile && isVideoName a.path
          · rw [if_pos hg]
            simpa using hne
          · rw [if_neg hg]
            rfl
        rw [hhead, ih hnt het, Nat.zero_add]

/-- Witness for C5 on a concrete listing: the mp4 is counted once, and the
txt and the directory are not. -/
theorem movie_scan_exactly_once_witness :
    (scanMovies []
        [⟨"/m/A.mp4", true⟩, ⟨"/m/b.txt", true⟩, ⟨"/m/sub", false⟩]).countP
      (fun mv =>
        mv.path == (⟨"/m/A.mp4", true⟩ : FsEntry).path) =
      if (⟨"/m/A.mp4", true⟩ : FsEntry).isFile &&
          isVideoName (⟨"/m/A.mp4", true⟩ : FsEntry).path then 1 else 0 :=
  movie_scan_exactly_once []
    [⟨"/m/A.mp4", true⟩, ⟨"/m/b.txt", true⟩, ⟨"/m/sub", false⟩]
    (by decide) ⟨"/m/A.mp4", true⟩ (by decide)

section RegexLemmas

theorem reSearchEp_isSome_iff (l : List Char) :
    (reSearchEp l).isSome = true ↔
      ∃ t, t <:+ l ∧ (anyAltAt t).isSome = true := by
  induction l with
  | nil =>
      constructor
      · intro h
        simp [reSearchEp] at h
      · rintro ⟨t, ht, ha⟩
        rw [List.suffix_nil] at ht
        subst ht
        simp [anyAltAt, altSE, altE, altEnd] at ha
  | cons c rest ih =>
      cases h : anyAltAt (c :: rest) with
      | some n =>
          constructor
          · intro _
            exact ⟨c :: rest, List.suffix_refl _, by rw [h]; rfl⟩
          · intro _
            simp [reSearchEp, h]
      | none =>
          constructor
          · intro hh
            have hh' : (reSearchEp rest).isSome = true := by
              simpa [reSearchEp, h] using hh
            obtain ⟨t, ht, ha⟩ := ih.mp hh'
            exact ⟨t, ht.trans (List.suffix_cons c rest), ha⟩
          · rintro ⟨t, ht, ha⟩
            rcases List.suffix_cons_iff.mp ht with h1 | h2
            · subst h1
              rw [h] at ha
              simp at ha
            · have : (reSearchEp rest).isSome = true := ih.mpr ⟨t, h2, ha⟩
              simpa [reSearchEp, h] using this

end RegexLemmas

/-- Claim C3 as stated is false: the code does not try the whole-string
pattern `S<season>E<number>` before the whole-string pattern `E<number>`;
`re.search` takes the leftmost matching position.  On the file
`"E07 S02E05.mp4"` the code extracts 7 (the `E07` at the start), while the
spec's pattern order would extract 5 from `S02E05`. -/
theorem episode_pattern_order_counterexample :
    episodeNumberOfFile "E07 S02E05.mp4" = some 7 ∧
    spec_episode_number (pyStem "E07 S02E05.mp4") = some 5 ∧
    episodeNumberOfFile "E07 S02E05.mp4" ≠
      spec_episode_number (pyStem "E07 S02E05.mp4") :=
  ⟨by decide, by decide, by decide⟩

/-- Claim C3 amended: extraction scans the stem left to right and, at each
position, tries `S<season>E<number>`, then `E<number>`, then trailing
digits, the leftmost matching position winning (pattern order only breaks
ties at the same position); a string with no match at any position yields
no episode number.  The spec's four examples hold as given, applied as the
code applies them (to the filename with its extension stripped). -/
theorem episode_number_extraction_amended :
    episodeNumberOfFile "Show S02E05.mp4" = some 5 ∧
    episodeNumberOfFile "Show E07.mkv" = some 7 ∧
    episodeNumberOfFile "Show 12.mp4" = some 12 ∧
    episodeNumberOfFile "Show.mp4" = none ∧
    episodeNumberOfFile "E07 S02E05.mp4" = some 7 ∧
    ∀ s : String,
      (get_episode_number s).isSome = true ↔
        ∃ t, t <:+ s.data ∧ (anyAltAt t).isSome = true :=
  ⟨by decide, by decide, by decide, by decide, by decide,
    fun s => reSearchEp_isSome_iff s.data⟩

/-- Claim C6 as stated is false: the code lowercases the whole directory
name (and removes every occurrence of `"season"`, not only the leading
one), so the season key is not the remaining text after the `"season"`
prefix.  For the directory `Season 2B` the claim's remaining text is
`"2B"`, but the scanner files the episode under `"2b"`. -/
theorem season_number_counterexample :
    dictGet (dictGetD (scanShows [] "/videos/Shows"
        [RootItem.dirEntry "X"
          [ShowItem.dirItem "Season 2B" [⟨"ep.mp4", true⟩]]]) "X" [])
      "2B" = none ∧
    dictGet (dictGetD (scanShows [] "/videos/Shows"
        [RootItem.dirEntry "X"
          [ShowItem.dirItem "Season 2B" [⟨"ep.mp4", true⟩]]]) "X" [])
      "2b" = some [⟨"/videos/Shows/X/Season 2B/ep.mp4", "ep", "2b", []⟩] :=
  ⟨by decide, by decide⟩

/-- Claim C6 amended: for a subdirectory whose lowercased name starts with
`"season"`, the season number is the name lowercased with every occurrence
of `"season"` removed and surrounding whitespace stripped (for names such
as `Season 2`, whose remainder has no uppercase letters, this equals the
remaining text `"2"`); a supported video file directly inside the show
directory is assigned season `"1"`. -/
theorem season_assignment_amended :
    (∀ store root sname dname fname,
        startsWithSeason dname = true → isVideoName fname = true →
        dictGet (dictGetD (scanShows store root
              [RootItem.dirEntry sname
                [ShowItem.dirItem dname [⟨fname, true⟩]]]) sname [])
            (seasonNumOf dname) =
          some [⟨root ++ "/" ++ sname ++ "/" ++ dname ++ "/" ++ fname,
                pyStem fname, seasonNumOf dname,
                dictGetD store
                  (root ++ "/" ++ sname ++ "/" ++ dname ++ "/" ++ fname)
                  []⟩]) ∧
    seasonNumOf "Season 2" = "2" ∧
    (∀ store root sname fname, isVideoName fname = true →
        dictGet (dictGetD (scanShows store root
              [RootItem.dirEntry sname [ShowItem.fileItem fname]]) sname [])
            "1" =
          some [⟨root ++ "/" ++ sname ++ "/" ++ fname, pyStem fname, "1",
                dictGetD store (root ++ "/" ++ sname ++ "/" ++ fname) []⟩]) := by
  refine ⟨?_, by decide, ?_⟩
  · intro store root sname dname fname h1 h2
    simp [scanShows, showsStep, scanShow, showStep, seasonEpisodes,
      List.filterMap_cons, h1, h2, dictSet, dictGet, dictGetD]
  · intro store root sname fname h
    simp [scanShows, showsStep, scanShow, showStep, h, dictSet, dictGet,
      dictGetD]

/-- Witness for C6 at concrete directories: `Season 2` files its episode
under season `"2"`, and a loose video file lands in season `"1"`. -/
theorem season_assignment_amended_witness :
    dictGet (dictGetD (scanShows [] "/v"
          [RootItem.dirEntry "X"
            [ShowItem.dirItem "Season 2" [⟨"ep.mp4", true⟩]]]) "X" [])
        (seasonNumOf "Season 2") =
      some [⟨"/v" ++ "/" ++ "X" ++ "/" ++ "Season 2" ++ "/" ++ "ep.mp4",
            pyStem "ep.mp4", seasonNumOf "Season 2",
            dictGetD []
              ("/v" ++ "/" ++ "X" ++ "/" ++ "Season 2" ++ "/" ++ "ep.mp4")
              []⟩] ∧
    dictGet (dictGetD (scanShows [] "/v"
          [RootItem.dirEntry "X" [ShowItem.fileItem "pilot.mkv"]]) "X" [])
        "1" =
      some [⟨"/v" ++ "/" ++ "X" ++ "/" ++ "pilot.mkv", pyStem "pilot.mkv",
            "1", dictGetD [] ("/v" ++ "/" ++ "X" ++ "/" ++ "pilot.mkv")
              []⟩] :=
  ⟨season_assignment_amended.1 [] "/v" "X" "Season 2" "ep.mp4"
      (by decide) (by decide),
    season_assignment_amended.2.2 [] "/v" "X" "pilot.mkv" (by decide)⟩

section MergeLemmas

theorem dictGet_eq_none {α : Type} {m : List (String × α)} {k : String}
    (h : k ∉ m.map Prod.fst) : dictGet m k = none := by
  induction m with
  | nil => rfl
  | cons p rest ih =>
      obtain ⟨k0, v0⟩ := p
      rw [List.map_cons, List.mem_cons] at h
      push_neg at h
      obtain ⟨h1, h2⟩ := h
      simp only [dictGet]
      rw [if_neg (fun e => h1 e.symm)]
      exact ih h2

theorem dictGet_dictMerge (a b : MetadataRecord)
    (hnd : (b.map Prod.fst).Nodup) (k : String) :
    dictGet (dictMerge a b) k =
      ((dictGet b k).orElse fun _ => dictGet a k) := by
  induction b generalizing a with
  | nil => simp [dictMerge, dictGet]
  | cons p rest ih =>
      obtain ⟨k0, v0⟩ := p
      rw [List.map_cons, List.nodup_cons] at hnd
      obtain ⟨hk0, hrest⟩ := hnd
      have hfold : dictMerge a ((k0, v0) :: rest) =
          dictMerge (dictSet a k0 v0) rest := by
        simp [dictMerge]
      rw [hfold, ih (dictSet a k0 v0) hrest]
      by_cases hk : k0 = k
      · subst hk
        rw [dictGet_eq_none hk0]
        simp [dictGet, dictGet_dictSet_self]
      · rw [dictGet_dictSet_ne a k0 k v0 (fun e => hk e.symm)]
        simp [dictGet, hk]

end MergeLemmas

/-- Claim C4: merged episode read.  For every record whose `is_episode`
flag is truthy and whose `show_name` is the string `sn`, the merged read
is, at every field, the episode's value when present and otherwise the
value of the show record stored under `show:<sn>` — the union of the two
records with episode fields winning. -/
theorem merged_episode_read (store : MetaStore) (path sn : String)
    (md : MetadataRecord) (hmd : dictGetD store path [] = md)
    (hflag : optTruthy (dictGet md "is_episode") = true)
    (hname : dictGet md "show_name" = some (.str sn))
    (hnd : (md.map Prod.fst).Nodup) :
    ∀ k, dictGet (get_episode_metadata store path) k =
      ((dictGet md k).orElse fun _ =>
        dictGet (dictGetD store ("show:" ++ sn) []) k) := by
  intro k
  simp only [get_episode_metadata, hmd, hflag, hname, if_true, fstr]
  exact dictGet_dictMerge _ md hnd k

/-- Witness for C4 at the spec's example: the merged record takes `genres`
from the show record and `title`, `is_episode`, `show_name` from the
episode record. -/
theorem merged_episode_read_witness :
    (dictGet (get_episode_metadata exMergeStore "/shows/X/Ep1.mp4")
        "genres" =
      ((dictGet exEpisodeMd "genres").orElse fun _ =>
        dictGet (dictGetD exMergeStore ("show:" ++ "X") []) "genres")) ∧
    (dictGet (get_episode_metadata exMergeStore "/shows/X/Ep1.mp4")
        "title" =
      ((dictGet exEpisodeMd "title").orElse fun _ =>
        dictGet (dictGetD exMergeStore ("show:" ++ "X") []) "title")) ∧
    (dictGet (get_episode_metadata exMergeStore "/shows/X/Ep1.mp4")
        "is_episode" =
      ((dictGet exEpisodeMd "is_episode").orElse fun _ =>
        dictGet (dictGetD exMergeStore ("show:" ++ "X") []) "is_episode")) ∧
    (dictGet (get_episode_metadata exMergeStore "/shows/X/Ep1.mp4")
        "show_name" =
      ((dictGet exEpisodeMd "show_name").orElse fun _ =>
        dictGet (dictGetD exMergeStore ("show:" ++ "X") []) "show_name")) :=
  ⟨merged_episode_read exMergeStore "/shows/X/Ep1.mp4" "X" exEpisodeMd
      rfl (by decide) rfl (by decide) "genres",
    merged_episode_read exMergeStore "/shows/X/Ep1.mp4" "X" exEpisodeMd
      rfl (by decide) rfl (by decide) "title",
    merged_episode_read exMergeStore "/shows/X/Ep1.mp4" "X" exEpisodeMd
      rfl (by decide) rfl (by decide) "is_episode",
    merged_episode_read exMergeStore "/shows/X/Ep1.mp4" "X" exEpisodeMd
      rfl (by decide) rfl (by decide) "show_name"⟩

section SortLemmas

theorem mapM_keyed {α : Type} (f : α → Except String Rat) (l : List α)
    (h : ∀ a ∈ l, (f a).isOk = true) :
    (l.mapM fun a => (f a).map fun q => (q, a)) =
      .ok (l.map fun a => ((f a).toOption.getD 0, a)) := by
  induction l with
  | nil => rfl
  | cons a t ih =>
      cases hfa : f a with
      | error e =>
          have := h a (List.mem_cons_self a t)
          rw [hfa] at this
          simp [Except.isOk, Except.toBool] at this
      | ok q =>
          have ht : ∀ x ∈ t, (f x).isOk = true :=
            fun x hx => h x (List.mem_cons_of_mem a hx)
          rw [List.mapM_cons, ih ht]
          simp [hfa, Except.map, Except.toOption, Except.pure, Except.bind,
            Bind.bind, Pure.pure]

theorem pySorted_ok {α : Type} (f : α → Except String Rat) (l : List α)
    (h : ∀ a ∈ l, (f a).isOk = true) :
    ∃ out, pySorted f l = .ok out ∧ out.Perm l ∧
      out.Pairwise fun a b =>
        ((f a).toOption.getD 0) ≤ ((f b).toOption.getD 0) := by
  have hmap := mapM_keyed f l h
  refine ⟨(List.insertionSort (fun p q => p.1 ≤ q.1)
      (l.map fun a => ((f a).toOption.getD 0, a))).map Prod.snd, ?_, ?_, ?_⟩
  · have hdo : pySorted f l =
        ((l.mapM fun a => (f a).map fun q => (q, a)) >>= fun ks =>
          pure ((List.insertionSort (fun p q => p.1 ≤ q.1) ks).map
            Prod.snd)) := rfl
    rw [hdo, hmap]
    rfl
  · have hperm := (List.perm_insertionSort (fun p q : Rat × α => p.1 ≤ q.1)
      (l.map fun a => ((f a).toOption.getD 0, a))).map Prod.snd
    have hsnd : ((l.map fun a => ((f a).toOption.getD 0, a)).map Prod.snd)
        = l := by
      rw [List.map_map]
      exact List.map_id l
    rw [hsnd] at hperm
    exact hperm
  · have hsorted := List.sorted_insertionSort
      (fun p q : Rat × α => p.1 ≤ q.1)
      (l.map fun a => ((f a).toOption.getD 0, a))
    have hmem : ∀ p ∈ List.insertionSort (fun p q : Rat × α => p.1 ≤ q.1)
        (l.map fun a => ((f a).toOption.getD 0, a)),
        p.1 = (f p.2).toOption.getD 0 := by
      intro p hp
      have hpk : p ∈ l.map fun a => ((f a).toOption.getD 0, a) :=
        ((List.perm_insertionSort _ _).mem_iff).mp hp
      rw [List.mem_map] at hpk
      obtain ⟨a, _, hpa⟩ := hpk
      rw [← hpa]
    have hpw : List.Pairwise
        (fun p q : Rat × α =>
          (f p.2).toOption.getD 0 ≤ (f q.2).toOption.getD 0)
        (List.insertionSort (fun p q : Rat × α => p.1 ≤ q.1)
          (l.map fun a => ((f a).toOption.getD 0, a))) := by
      refine List.Pairwise.imp_of_mem ?_ hsorted
      intro p q hp hq hr
      rw [← hmem p hp, ← hmem q hq]
      exact hr
    exact List.pairwise_map.mpr hpw

end SortLemmas

/-- Claim C7 as stated is false: sorting by rating does not treat every
non-numeric rating as 0.0 — `float()` raises on a truthy non-numeric
string, and `on_view_sorting` does not catch it, so the sort fails on a
record with rating `"N/A"`. -/
theorem rating_sort_counterexample :
    sortMoviesByRating [⟨"/m/A.mp4", "A", [("rating", JVal.str "N/A")]⟩] =
      .error "ValueError: could not convert string to float" := by
  rfl

set_option maxHeartbeats 1000000 in
/-- Claim C7 amended: sorting by rating (movies and shows alike) sorts
ascending by the numeric rating, treating a missing rating or a falsy
rating value (`None`, 0, empty string, `False`, empty list) as 0.0, and
succeeds whenever every rating value converts under `float()`; a truthy
non-numeric rating raises and fails the whole sort (see the
counterexample). -/
theorem rating_sort_amended :
    (∀ movies : List MovieEntry,
        (∀ m ∈ movies, (movieRatingKey m).isOk = true) →
        ∃ l, sortMoviesByRating movies = .ok l ∧ l.Perm movies ∧
          l.Pairwise fun a b =>
            ((movieRatingKey a).toOption.getD 0) ≤
              ((movieRatingKey b).toOption.getD 0)) ∧
    (∀ (store : MetaStore) (shows : List (String × Seasons)),
        (∀ p ∈ shows, (showRatingKey store p.1).isOk = true) →
        ∃ l, sortShowsByRating store shows = .ok l ∧ l.Perm shows ∧
          l.Pairwise fun a b =>
            ((showRatingKey store a.1).toOption.getD 0) ≤
              ((showRatingKey store b.1).toOption.getD 0)) ∧
    pyFloat (pyOrZero JVal.null) = .ok 0 ∧
    pyFloat (pyOrZero (JVal.str "")) = .ok 0 ∧
    movieRatingKey movieA = .ok 0 := by
  refine ⟨?_, ?_, rfl, rfl, rfl⟩
  · intro movies h
    have := pySorted_ok movieRatingKey movies h
    simpa only [sortMoviesByRating] using this
  · intro store shows h
    have := pySorted_ok (fun p => showRatingKey store p.1) shows h
    simpa only [sortShowsByRating] using this

/-- Witness for C7 on a concrete catalog: two movies with numeric ratings
sort successfully into ascending order. -/
theorem rating_sort_amended_witness :
    ∃ l, sortMoviesByRating
        [⟨"/m/A.mp4", "A", [("rating", JVal.num 8)]⟩,
         ⟨"/m/B.mp4", "B", [("rating", JVal.num 7)]⟩] = .ok l ∧
      l.Perm
        [⟨"/m/A.mp4", "A", [("rating", JVal.num 8)]⟩,
         ⟨"/m/B.mp4", "B", [("rating", JVal.num 7)]⟩] ∧
      l.Pairwise fun a b =>
        ((movieRatingKey a).toOption.getD 0) ≤
          ((movieRatingKey b).toOption.getD 0) :=
  rating_sort_amended.1
    [⟨"/m/A.mp4", "A", [("rating", JVal.num 8)]⟩,
     ⟨"/m/B.mp4", "B", [("rating", JVal.num 7)]⟩]
    (by decide)

section FetchLemmas

theorem fetchMoviesPass_append (c : ImdbClient) (l1 l2 : List MovieEntry)
    (st : StoreState) :
    fetchMoviesPass c (l1 ++ l2) st =
      fetchMoviesPass c l2 (fetchMoviesPass c l1 st) := by
  simp [fetchMoviesPass, List.foldl_append]

theorem fetchMoviesPass_cons (c : ImdbClient) (m : MovieEntry)
    (l : List MovieEntry) (st : StoreState) :
    fetchMoviesPass c (m :: l) st =
      fetchMoviesPass c l (fetch_movie_metadata c m st) :=
  rfl

theorem fetchShowsPass_append (tv : TvClient)
    (l1 l2 : List (String × Seasons)) (st : StoreState) :
    fetchShowsPass tv (l1 ++ l2) st =
      fetchShowsPass tv l2 (fetchShowsPass tv l1 st) := by
  simp [fetchShowsPass, List.foldl_append]

theorem fetchShowsPass_cons (tv : TvClient) (name : String)
    (seasons : Seasons) (l : List (String × Seasons)) (st : StoreState) :
    fetchShowsPass tv ((name, seasons) :: l) st =
      fetchShowsPass tv l (fetch_show_metadata tv name seasons st) :=
  rfl

end FetchLemmas

/-- Claim C8: per-item failure isolation in the fetcher.  An exception
escaping one movie's body is caught, leaving the store as that item found
it, and the batch equals the batch over the remaining items; an exception
escaping one show's body is caught keeping the state the body had reached,
and the show batch likewise always continues with the next item. -/
theorem fetch_batch_isolation :
    (∀ c movie st e, fetch_movie_body c movie st = .error e →
        fetch_movie_metadata c movie st = st) ∧
    (∀ c st l1 movie l2,
        (∃ e, fetch_movie_body c movie (fetchMoviesPass c l1 st) =
          .error e) →
        fetchMoviesPass c (l1 ++ movie :: l2) st =
          fetchMoviesPass c l2 (fetchMoviesPass c l1 st)) ∧
    (∀ tv name seasons st e stErr,
        fetch_show_body tv name seasons st = .error (e, stErr) →
          fetch_show_metadata tv name seasons st = stErr) ∧
    (∀ tv st l1 name seasons l2,
        fetchShowsPass tv (l1 ++ (name, seasons) :: l2) st =
          fetchShowsPass tv l2
            (fetch_show_metadata tv name seasons
              (fetchShowsPass tv l1 st))) := by
  have hcaught : ∀ c movie st e, fetch_movie_body c movie st = .error e →
      fetch_movie_metadata c movie st = st := by
    intro c movie st e h
    simp [fetch_movie_metadata, h]
  refine ⟨hcaught, ?_, ?_, ?_⟩
  · rintro c st l1 movie l2 ⟨e, he⟩
    rw [fetchMoviesPass_append, fetchMoviesPass_cons,
      hcaught c movie (fetchMoviesPass c l1 st) e he]
  · intro tv name seasons st e stErr h
    simp [fetch_show_metadata, h]
  · intro tv st l1 name seasons l2
    rw [fetchShowsPass_append, fetchShowsPass_cons]

/-- Witness for C8 with a provider whose calls all raise: the failing
movie leaves the store untouched, the batch continues past it, and the
failing show keeps the state its body had reached. -/
theorem fetch_batch_isolation_witness :
    fetch_movie_metadata failingImdb movieA emptyStore = emptyStore ∧
    fetchMoviesPass failingImdb ([] ++ movieA :: [movieB]) emptyStore =
      fetchMoviesPass failingImdb [movieB]
        (fetchMoviesPass failingImdb [] emptyStore) ∧
    fetch_show_metadata failingTv "X" [] emptyStore = emptyStore ∧
    fetchShowsPass failingTv ([] ++ ("X", []) :: []) emptyStore =
      fetchShowsPass failingTv []
        (fetch_show_metadata failingTv "X" []
          (fetchShowsPass failingTv [] emptyStore)) :=
  ⟨fetch_batch_isolation.1 failingImdb movieA emptyStore "HTTPError" rfl,
    fetch_batch_isolation.2.1 failingImdb emptyStore [] movieA [movieB]
      ⟨"HTTPError", rfl⟩,
    fetch_batch_isolation.2.2.1 failingTv "X" [] emptyStore "HTTPError"
      emptyStore rfl,
    fetch_batch_isolation.2.2.2 failingTv emptyStore [] "X" [] []⟩

end Videoh
